import Mathlib

/-!
Shallow embedding of `nsq/message.py` (the `Message` class of pynsq).

The Python class keeps per-message state (`_async_enabled`, `_has_responded`,
`id`, `body`, `timestamp`, `attempts`, `timeout`, `conn`), manages a tornado
`PeriodicCallback` timer, and emits events through `EventedMixin.trigger`.
Here the state is a structure, every method is a pure function from the old
state to the new state (returning `none` when a Python `assert` fails), and
each `trigger(...)` call site is recorded as a `TriggerCall` value in an
event list, so that what a listener would observe is part of the output.
-/

set_option autoImplicit false

namespace Nsq

/-- A Python value appearing in `**kwargs` of `requeue`.  Python `bool` is a
subclass of `int`, which matters for `isinstance(kwargs['delay'], int)`. -/
inductive PyVal where
  | int (n : Int)
  | bool (b : Bool)
  | str (s : String)
  deriving DecidableEq, Repr

/-- `isinstance(v, int)` — true for Python ints and bools. -/
def PyVal.isInt : PyVal → Bool
  | .int _ => true
  | .bool _ => true
  | .str _ => false

/-- The numeric value of a Python int or bool (`True == 1`, `False == 0`). -/
def PyVal.toInt : PyVal → Int
  | .int n => n
  | .bool b => if b then 1 else 0
  | .str _ => 0

/-- A Python keyword-argument dict, as an association list with unique keys
in insertion order. -/
abbrev Kwargs := List (String × PyVal)

/-- Dict lookup: `d[k]` / `k in d`. -/
def getKey {α : Type} : List (String × α) → String → Option α
  | [], _ => none
  | (k', v) :: rest, k => if k' = k then some v else getKey rest k

/-- Dict assignment `d[k] = v`: overwrite in place if the key exists,
otherwise append (Python dicts preserve insertion order). -/
def setKey {α : Type} : List (String × α) → String → α → List (String × α)
  | [], k, v => [(k, v)]
  | (k', v') :: rest, k, v =>
      if k' = k then (k, v) :: rest else (k', v') :: setKey rest k v

/-- The tornado `PeriodicCallback` handle built in `_set_timeout`.  Only the
interval and the running flag are observable to `message.py` (`is_running`,
`stop`, `start`); the stored callback itself is modelled by `fireTimeout`
below. -/
structure PeriodicCallback where
  callback_time : Int
  running : Bool
  deriving DecidableEq, Repr

/-- `PeriodicCallback.stop()`. -/
def PeriodicCallback.stop (t : PeriodicCallback) : PeriodicCallback :=
  { t with running := false }

/-- `PeriodicCallback.start()`. -/
def PeriodicCallback.start (t : PeriodicCallback) : PeriodicCallback :=
  { t with running := true }

/-- `PeriodicCallback.is_running()`. -/
def PeriodicCallback.is_running (t : PeriodicCallback) : Bool :=
  t.running

/-- The slice of the `AsyncConn` collaborator that `message.py` reads:
the configured `msg_timeout` interval.  (Its `io_loop` and its
`trigger` method are modelled by the event log.) -/
structure Conn where
  msg_timeout : Int
  deriving DecidableEq, Repr

/-- Which object a `.trigger(...)` call was made on. -/
inductive Target where
  | message
  | connection
  deriving DecidableEq, Repr

/-- The event-name constants from `nsq/event.py` used by `message.py`. -/
inductive EventName where
  | FINISH
  | REQUEUE
  | TOUCH
  | MESSAGE_TIMEOUT
  deriving DecidableEq, Repr

/-- An object reference passed in a trigger context: either the message
itself (`self`) or the connection object (`async_conn`). -/
inductive Ref where
  | msgSelf
  | connObj
  deriving DecidableEq, Repr

/-- A value appearing in a trigger's keyword context: an object reference
or a plain Python value forwarded from `**kwargs`. -/
inductive CtxVal where
  | obj (r : Ref)
  | val (v : PyVal)
  deriving DecidableEq, Repr

/-- One `x.trigger(name, **context)` call, exactly as issued by a call site
in `message.py`: the object it was called on, the event name, and the
keyword context in order. -/
structure TriggerCall where
  target : Target
  name : EventName
  ctx : List (String × CtxVal)
  deriving DecidableEq, Repr

/-- The state of one `nsq.message.Message` instance. -/
structure Message where
  _async_enabled : Bool
  _has_responded : Bool
  id : String
  body : String
  timestamp : Int
  attempts : Int
  timeout : Option PeriodicCallback
  conn : Option Conn
  deriving DecidableEq, Repr

namespace Message

/-- `Message.__init__(self, id, body, timestamp, attempts)`. -/
def init (id body : String) (timestamp attempts : Int) : Message :=
  { _async_enabled := false
    _has_responded := false
    id := id
    body := body
    timestamp := timestamp
    attempts := attempts
    timeout := none
    conn := none }

/-- `Message._clear_timeout`: `if self.timeout: self.timeout.stop()`. -/
def _clear_timeout (m : Message) : Message :=
  match m.timeout with
  | none => m
  | some t => { m with timeout := some t.stop }

/-- `Message._set_timeout(self, async_conn)`: store the connection, stop any
existing timer, build a fresh `PeriodicCallback` with the connection's
`msg_timeout` interval and start it. -/
def _set_timeout (m : Message) (async_conn : Conn) : Message :=
  let m := { m with conn := some async_conn }
  let m := m._clear_timeout
  { m with
    timeout := some (PeriodicCallback.start
      { callback_time := async_conn.msg_timeout, running := false }) }

/-- `Message.is_alive`: asserts `self.timeout is not None` (assertion
failure is `none`), then returns `self.timeout.is_running()`. -/
def is_alive (m : Message) : Option Bool :=
  match m.timeout with
  | none => none
  | some t => some t.is_running

/-- `Message.enable_async`. -/
def enable_async (m : Message) : Message :=
  { m with _async_enabled := true }

/-- `Message.is_async`. -/
def is_async (m : Message) : Bool :=
  m._async_enabled

/-- `Message.has_responded`. -/
def has_responded (m : Message) : Bool :=
  m._has_responded

/-- The `self.trigger(event.FINISH, message=self)` call in `finish`. -/
def finishTrigger : TriggerCall :=
  ⟨Target.message, EventName.FINISH, [("message", CtxVal.obj Ref.msgSelf)]⟩

/-- `Message.finish`: `assert not self._has_responded` (failure is `none`),
set `_has_responded`, clear the timer, trigger `FINISH`. -/
def finish (m : Message) : Option (Message × List TriggerCall) :=
  if m._has_responded then none
  else
    let m := { m with _has_responded := true }
    let m := m._clear_timeout
    some (m, [finishTrigger])

/-- The kwargs normalization at the top of `requeue`: if `'delay' in kwargs
and isinstance(kwargs['delay'], int) and kwargs['delay'] > 0`, set
`kwargs['time_ms'] = kwargs['delay'] * 1000`. -/
def normalizeDelay (kwargs : Kwargs) : Kwargs :=
  match getKey kwargs "delay" with
  | some v =>
      if v.isInt && decide (0 < v.toInt) then
        setKey kwargs "time_ms" (PyVal.int (v.toInt * 1000))
      else kwargs
  | none => kwargs

/-- The context of `self.trigger(event.REQUEUE, message=self, **kwargs)`. -/
def requeueCtx (kwargs : Kwargs) : List (String × CtxVal) :=
  ("message", CtxVal.obj Ref.msgSelf) :: kwargs.map (fun p => (p.1, CtxVal.val p.2))

/-- `Message.requeue(self, **kwargs)`: normalize `delay` to `time_ms`, then
`assert not self._has_responded` (failure is `none`; the normalization only
touched the local dict, never `self`), set `_has_responded`, clear the
timer, trigger `REQUEUE` with the message and the normalized kwargs. -/
def requeue (m : Message) (kwargs : Kwargs) : Option (Message × List TriggerCall) :=
  let kwargs := normalizeDelay kwargs
  if m._has_responded then none
  else
    let m := { m with _has_responded := true }
    let m := m._clear_timeout
    some (m, [⟨Target.message, EventName.REQUEUE, requeueCtx kwargs⟩])

/-- The `self.trigger(event.TOUCH, message=self)` call in `touch`. -/
def touchTrigger : TriggerCall :=
  ⟨Target.message, EventName.TOUCH, [("message", CtxVal.obj Ref.msgSelf)]⟩

/-- `Message.touch`: `assert not self._has_responded` (failure is `none`);
`if self.timeout: self._set_timeout(self.conn)`; trigger `TOUCH`.
Whenever `self.timeout` is set, `self.conn` was set by the same
`_set_timeout` call, so the `(some _, none)` branch is unreachable from
any reachable state; it is modelled as leaving the state unchanged. -/
def touch (m : Message) : Option (Message × List TriggerCall) :=
  if m._has_responded then none
  else
    let m :=
      match m.timeout, m.conn with
      | some _, some c => m._set_timeout c
      | _, _ => m
    some (m, [touchTrigger])

/-- The trigger issued by the timeout callback defined inside
`_set_timeout`: `async_conn.trigger(event.MESSAGE_TIMEOUT, conn=self,
message=self)` — called on the connection, and passing `self` (the
message) as both the `conn` and the `message` context values. -/
def timeoutTrigger : TriggerCall :=
  ⟨Target.connection, EventName.MESSAGE_TIMEOUT,
    [("conn", CtxVal.obj Ref.msgSelf), ("message", CtxVal.obj Ref.msgSelf)]⟩

/-- Whether the armed timer is currently running (the condition under which
the io_loop invokes the periodic callback). -/
def timeoutRunning (m : Message) : Bool :=
  match m.timeout with
  | some t => t.is_running
  | none => false

/-- The body of the `callback` closure in `_set_timeout`: trigger
`MESSAGE_TIMEOUT` on the connection, then
`if self.timeout.is_running(): self._clear_timeout()`. -/
def fireTimeout (m : Message) : Message × List TriggerCall :=
  let m := if m.timeoutRunning then m._clear_timeout else m
  (m, [timeoutTrigger])

end Message

/-- One operation a caller (or the io_loop) can perform on a message:
the public methods, arming the timer, and the timer firing. -/
inductive Call where
  | finish
  | requeue (kwargs : Kwargs)
  | touch
  | enable_async
  | set_timeout (c : Conn)
  | fire
  deriving Repr

/-- Run one call: the new state, the triggers it emitted, and whether it
completed (`false` when a Python assertion aborted it; an aborted call
leaves the state unchanged and emits nothing, since in `message.py` every
`assert` precedes any mutation of `self`).  A `fire` only invokes the
timeout callback while the timer is running, as the io_loop would. -/
def step (m : Message) : Call → Message × List TriggerCall × Bool
  | .finish =>
      match m.finish with
      | some (m', evs) => (m', evs, true)
      | none => (m, [], false)
  | .requeue kwargs =>
      match m.requeue kwargs with
      | some (m', evs) => (m', evs, true)
      | none => (m, [], false)
  | .touch =>
      match m.touch with
      | some (m', evs) => (m', evs, true)
      | none => (m, [], false)
  | .enable_async => (m.enable_async, [], true)
  | .set_timeout c => (m._set_timeout c, [], true)
  | .fire =>
      if m.timeoutRunning then
        let (m', evs) := m.fireTimeout
        (m', evs, true)
      else (m, [], true)

/-- The state after a sequence of calls. -/
def exec (m : Message) : List Call → Message
  | [] => m
  | c :: cs => exec (step m c).1 cs

/-- All triggers emitted along a sequence of calls, in order. -/
def events (m : Message) : List Call → List TriggerCall
  | [] => []
  | c :: cs => (step m c).2.1 ++ events (step m c).1 cs

/-- Whether a call is a disposition call (`finish` or `requeue`). -/
def Call.isDispo : Call → Bool
  | .finish => true
  | .requeue _ => true
  | _ => false

/-- The number of disposition calls in the sequence that succeed (their
assertion passes). -/
def succCount (m : Message) : List Call → Nat
  | [] => 0
  | c :: cs =>
      (if c.isDispo && (step m c).2.2 then 1 else 0) + succCount (step m c).1 cs

/-- The number of `MESSAGE_TIMEOUT` triggers in an event list. -/
def timeoutCount (evs : List TriggerCall) : Nat :=
  (evs.filter (fun e => e.name = EventName.MESSAGE_TIMEOUT)).length

/-- Whether a call can (re-)arm the timer: `_set_timeout`, or `touch`
(which re-arms an already-armed timer). -/
def Call.isRearm : Call → Bool
  | .set_timeout _ => true
  | .touch => true
  | _ => false

/-- Whether a call is an arming call proper (`_set_timeout`). -/
def Call.isArm : Call → Bool
  | .set_timeout _ => true
  | _ => false

/-! ### Concrete instances used to exercise the model -/

/-- A concrete connection with a 60-second `msg_timeout`. -/
def connEx : Conn := ⟨60000⟩

/-- A freshly constructed message. -/
def msgEx : Message := Message.init "0123456789abcdef" "payload" 1700000000 1

/-- `msgEx` after the connection armed its client-side timeout. -/
def armedEx : Message := msgEx._set_timeout connEx

/-- An already-responded message (e.g. `msgEx` after a successful
`finish()`), used to exercise the contract checks. -/
def respondedEx : Message := { msgEx with _has_responded := true }

/-! ### Association-list (dict) lemmas -/

theorem getKey_setKey_self {α : Type} (l : List (String × α)) (k : String) (v : α) :
    getKey (setKey l k v) k = some v := by
  induction l with
  | nil => simp [setKey, getKey]
  | cons p l ih =>
      obtain ⟨k', v'⟩ := p
      by_cases h : k' = k <;> simp [setKey, getKey, h, ih]

theorem getKey_setKey_ne {α : Type} (l : List (String × α)) (k k' : String) (v : α)
    (h : k' ≠ k) : getKey (setKey l k v) k' = getKey l k' := by
  have hkk : ¬(k = k') := fun hh => h (Eq.symm hh)
  induction l with
  | nil => simp [setKey, getKey, hkk]
  | cons p rest ih =>
      obtain ⟨k₀, v₀⟩ := p
      by_cases h0 : k₀ = k
      · subst h0
        simp [setKey, getKey, hkk]
      · simp [setKey, getKey, h0, ih]

theorem getKey_map {α β : Type} (f : α → β) (l : List (String × α)) (k : String) :
    getKey (l.map (fun p => (p.1, f p.2))) k = (getKey l k).map f := by
  induction l with
  | nil => simp [getKey]
  | cons p l ih =>
      obtain ⟨k', v⟩ := p
      by_cases h : k' = k <;> simp [getKey, h, ih]

/-- Looking up any key other than `"message"` in a `REQUEUE` context reads
through to the kwargs dict. -/
theorem getKey_requeueCtx (kwargs : Kwargs) (k : String) (h : k ≠ "message") :
    getKey (Message.requeueCtx kwargs) k = (getKey kwargs k).map CtxVal.val := by
  have hmk : ¬("message" = k) := fun hh => h (Eq.symm hh)
  simp [Message.requeueCtx, getKey, hmk, getKey_map]

/-! ### Shapes of the individual operations -/

/-- `_clear_timeout` only stops the stored timer. -/
theorem _clear_timeout_eq (m : Message) :
    m._clear_timeout = { m with timeout := m.timeout.map PeriodicCallback.stop } := by
  cases m with
  | mk ae hr i b ts att tmo cn => cases tmo <;> rfl

/-- `_set_timeout` records the connection and installs a fresh, running
timer with the connection's interval. -/
theorem _set_timeout_eq (m : Message) (c : Conn) :
    m._set_timeout c =
      { m with conn := some c, timeout := some ⟨c.msg_timeout, true⟩ } := by
  cases m with
  | mk ae hr i b ts att tmo cn => cases tmo <;> rfl

theorem finish_none (m : Message) (h : m._has_responded = true) :
    m.finish = none := by
  simp [Message.finish, h]

theorem requeue_none (m : Message) (kwargs : Kwargs) (h : m._has_responded = true) :
    m.requeue kwargs = none := by
  simp [Message.requeue, h]

theorem touch_none (m : Message) (h : m._has_responded = true) :
    m.touch = none := by
  simp [Message.touch, h]

theorem finish_eq (m : Message) (h : m._has_responded = false) :
    m.finish = some ({ m with
        _has_responded := true
        timeout := m.timeout.map PeriodicCallback.stop }, [Message.finishTrigger]) := by
  cases m with
  | mk ae hr i b ts att tmo cn =>
      simp only [Message._has_responded] at h
      subst h
      cases tmo <;> rfl

theorem requeue_eq (m : Message) (kwargs : Kwargs) (h : m._has_responded = false) :
    m.requeue kwargs = some ({ m with
        _has_responded := true
        timeout := m.timeout.map PeriodicCallback.stop },
      [⟨Target.message, EventName.REQUEUE,
        Message.requeueCtx (Message.normalizeDelay kwargs)⟩]) := by
  cases m with
  | mk ae hr i b ts att tmo cn =>
      simp only [Message._has_responded] at h
      subst h
      cases tmo <;> rfl

theorem touch_eq_armed (m : Message) (c : Conn) (t : PeriodicCallback)
    (h : m._has_responded = false) (ht : m.timeout = some t) (hc : m.conn = some c) :
    m.touch = some (m._set_timeout c, [Message.touchTrigger]) := by
  simp [Message.touch, h, ht, hc]

/-- With `delay` bound to an int, the normalization either synthesizes
`time_ms = delay * 1000` (positive delay) or leaves the dict untouched. -/
theorem normalizeDelay_int (kwargs : Kwargs) (d : Int)
    (hd : getKey kwargs "delay" = some (PyVal.int d)) :
    Message.normalizeDelay kwargs =
      if 0 < d then setKey kwargs "time_ms" (PyVal.int (d * 1000)) else kwargs := by
  by_cases h : 0 < d <;>
    simp [Message.normalizeDelay, hd, PyVal.isInt, PyVal.toInt, h]

/-! ### Timer-running facts -/

theorem timeoutRunning_clear (m : Message) :
    m._clear_timeout.timeoutRunning = false := by
  rw [_clear_timeout_eq]
  cases h : m.timeout <;>
    simp [Message.timeoutRunning, h, PeriodicCallback.stop, PeriodicCallback.is_running]

theorem timeoutRunning_stop_update (m : Message) (b : Bool) :
    Message.timeoutRunning { m with
      _has_responded := b
      timeout := m.timeout.map PeriodicCallback.stop } = false := by
  cases h : m.timeout <;>
    simp [Message.timeoutRunning, h, PeriodicCallback.stop, PeriodicCallback.is_running]

theorem timeoutRunning_set (m : Message) (c : Conn) :
    (m._set_timeout c).timeoutRunning = true := by
  rw [_set_timeout_eq]
  simp [Message.timeoutRunning, PeriodicCallback.is_running]

theorem timeoutRunning_none (m : Message) (h : m.timeout = none) :
    m.timeoutRunning = false := by
  simp [Message.timeoutRunning, h]

/-! ### Facts about one `step` -/

/-- `_has_responded` is monotone: no call ever resets it. -/
theorem step_responded_mono (m : Message) (c : Call) (h : m._has_responded = true) :
    (step m c).1._has_responded = true := by
  cases c with
  | finish => simp [step, finish_none m h, h]
  | requeue kwargs => simp [step, requeue_none m kwargs h, h]
  | touch => simp [step, touch_none m h, h]
  | enable_async => simp [step, Message.enable_async, h]
  | set_timeout c => simp [step, _set_timeout_eq, h]
  | fire =>
      by_cases hr : m.timeoutRunning <;>
        simp [step, Message.fireTimeout, _clear_timeout_eq, hr, h]

/-- A disposition call on an already-responded message fails its assert. -/
theorem step_dispo_fail (m : Message) (c : Call) (h : m._has_responded = true)
    (hc : c.isDispo = true) : (step m c).2.2 = false := by
  cases c with
  | finish => simp [step, finish_none m h]
  | requeue kwargs => simp [step, requeue_none m kwargs h]
  | touch => simp [Call.isDispo] at hc
  | enable_async => simp [Call.isDispo] at hc
  | set_timeout c => simp [Call.isDispo] at hc
  | fire => simp [Call.isDispo] at hc

/-- After any disposition call — successful or asserted-out — the message
has responded. -/
theorem step_dispo_responded (m : Message) (c : Call) (hc : c.isDispo = true) :
    (step m c).1._has_responded = true := by
  cases c with
  | finish =>
      cases h : m._has_responded with
      | true => simp [step, finish_none m h, h]
      | false => simp [step, finish_eq m h]
  | requeue kwargs =>
      cases h : m._has_responded with
      | true => simp [step, requeue_none m kwargs h, h]
      | false => simp [step, requeue_eq m kwargs h]
  | touch => simp [Call.isDispo] at hc
  | enable_async => simp [Call.isDispo] at hc
  | set_timeout c => simp [Call.isDispo] at hc
  | fire => simp [Call.isDispo] at hc

/-! ### Counting successful dispositions -/

theorem succCount_of_responded (m : Message) (cs : List Call)
    (h : m._has_responded = true) : succCount m cs = 0 := by
  induction cs generalizing m with
  | nil => rfl
  | cons c cs ih =>
      have h1 := step_responded_mono m c h
      by_cases hc : c.isDispo = true
      · simp [succCount, step_dispo_fail m c h hc, ih _ h1]
      · simp [succCount, hc, ih _ h1]

theorem succCount_le_one (m : Message) (cs : List Call) :
    succCount m cs ≤ 1 := by
  induction cs generalizing m with
  | nil => simp [succCount]
  | cons c cs ih =>
      by_cases hc : c.isDispo = true
      · have h1 := step_dispo_responded m c hc
        have h2 := succCount_of_responded (step m c).1 cs h1
        by_cases hok : (step m c).2.2 = true <;> simp [succCount, hc, hok, h2]
      · simp [succCount, hc]
        exact ih _

/-! ### Counting `MESSAGE_TIMEOUT` notifications -/

theorem timeoutRunning_enable (m : Message) :
    m.enable_async.timeoutRunning = m.timeoutRunning := rfl

theorem timeoutCount_append (a b : List TriggerCall) :
    timeoutCount (a ++ b) = timeoutCount a + timeoutCount b := by
  simp [timeoutCount, List.filter_append]

theorem timeoutCount_nil : timeoutCount [] = 0 := rfl

theorem timeoutCount_finishTrigger :
    timeoutCount [Message.finishTrigger] = 0 := rfl

theorem timeoutCount_touchTrigger :
    timeoutCount [Message.touchTrigger] = 0 := rfl

theorem timeoutCount_requeueTrigger (ctx : List (String × CtxVal)) :
    timeoutCount [⟨Target.message, EventName.REQUEUE, ctx⟩] = 0 := rfl

theorem timeoutCount_timeoutTrigger :
    timeoutCount [Message.timeoutTrigger] = 1 := rfl

theorem touch_eq (m : Message) (h : m._has_responded = false) :
    m.touch = some ((match m.timeout, m.conn with
      | some _, some c => m._set_timeout c
      | _, _ => m), [Message.touchTrigger]) := by
  simp [Message.touch, h]

/-- Once the timer is not running, no sequence of calls that never re-arms
it (no `_set_timeout`, no `touch`) produces a `MESSAGE_TIMEOUT`. -/
theorem timeoutCount_zero (m : Message) (cs : List Call)
    (h : ∀ x ∈ cs, x.isRearm = false) (h0 : m.timeoutRunning = false) :
    timeoutCount (events m cs) = 0 := by
  induction cs generalizing m with
  | nil => simp [events, timeoutCount]
  | cons c cs ih =>
      have hc : c.isRearm = false := h c (by simp)
      have hcs : ∀ x ∈ cs, x.isRearm = false := fun x hx => h x (by simp [hx])
      rw [events, timeoutCount_append]
      cases c with
      | touch => simp [Call.isRearm] at hc
      | set_timeout c' => simp [Call.isRearm] at hc
      | finish =>
          cases hr : m._has_responded with
          | true => simp [step, finish_none m hr, timeoutCount_nil, ih _ hcs h0]
          | false =>
              have hz := ih _ hcs (timeoutRunning_stop_update m true)
              simp [step, finish_eq m hr, timeoutCount_finishTrigger, hz]
      | requeue kwargs =>
          cases hr : m._has_responded with
          | true => simp [step, requeue_none m kwargs hr, timeoutCount_nil, ih _ hcs h0]
          | false =>
              have hz := ih _ hcs (timeoutRunning_stop_update m true)
              simp [step, requeue_eq m kwargs hr, timeoutCount_requeueTrigger, hz]
      | enable_async =>
          have hz := ih m.enable_async hcs (by rw [timeoutRunning_enable, h0])
          simp [step, timeoutCount_nil, hz]
      | fire =>
          simp [step, h0, timeoutCount_nil, ih _ hcs h0]

/-- From any state, a sequence of calls that never re-arms the timer
produces at most one `MESSAGE_TIMEOUT` notification. -/
theorem timeoutCount_le (m : Message) (cs : List Call)
    (h : ∀ x ∈ cs, x.isRearm = false) :
    timeoutCount (events m cs) ≤ 1 := by
  induction cs generalizing m with
  | nil => simp [events, timeoutCount]
  | cons c cs ih =>
      have hc : c.isRearm = false := h c (by simp)
      have hcs : ∀ x ∈ cs, x.isRearm = false := fun x hx => h x (by simp [hx])
      rw [events, timeoutCount_append]
      cases c with
      | touch => simp [Call.isRearm] at hc
      | set_timeout c' => simp [Call.isRearm] at hc
      | finish =>
          cases hr : m._has_responded with
          | true => simp [step, finish_none m hr, timeoutCount_nil, ih _ hcs]
          | false =>
              have hz := timeoutCount_zero _ cs hcs (timeoutRunning_stop_update m true)
              simp [step, finish_eq m hr, timeoutCount_finishTrigger, hz]
      | requeue kwargs =>
          cases hr : m._has_responded with
          | true => simp [step, requeue_none m kwargs hr, timeoutCount_nil, ih _ hcs]
          | false =>
              have hz := timeoutCount_zero _ cs hcs (timeoutRunning_stop_update m true)
              simp [step, requeue_eq m kwargs hr, timeoutCount_requeueTrigger, hz]
      | enable_async => simp [step, timeoutCount_nil, ih m.enable_async hcs]
      | fire =>
          cases h0 : m.timeoutRunning with
          | false => simp [step, h0, timeoutCount_nil, ih _ hcs]
          | true =>
              have hz := timeoutCount_zero _ cs hcs (timeoutRunning_clear m)
              simp [step, h0, Message.fireTimeout, timeoutCount_timeoutTrigger, hz]

/-! ### Immutability of the metadata fields -/

theorem step_fields (m : Message) (c : Call) :
    (step m c).1.id = m.id ∧ (step m c).1.body = m.body ∧
    (step m c).1.timestamp = m.timestamp ∧ (step m c).1.attempts = m.attempts := by
  cases c with
  | finish =>
      cases hr : m._has_responded with
      | true => simp [step, finish_none m hr]
      | false => simp [step, finish_eq m hr]
  | requeue kwargs =>
      cases hr : m._has_responded with
      | true => simp [step, requeue_none m kwargs hr]
      | false => simp [step, requeue_eq m kwargs hr]
  | touch =>
      cases hr : m._has_responded with
      | true => simp [step, touch_none m hr]
      | false =>
          cases ht : m.timeout <;> cases hcn : m.conn <;>
            simp [step, touch_eq m hr, ht, hcn, _set_timeout_eq]
  | enable_async => simp [step, Message.enable_async]
  | set_timeout c => simp [step, _set_timeout_eq]
  | fire =>
      cases h0 : m.timeoutRunning <;>
        simp [step, h0, Message.fireTimeout, _clear_timeout_eq]

theorem exec_fields (m : Message) (cs : List Call) :
    (exec m cs).id = m.id ∧ (exec m cs).body = m.body ∧
    (exec m cs).timestamp = m.timestamp ∧ (exec m cs).attempts = m.attempts := by
  induction cs generalizing m with
  | nil => simp [exec]
  | cons c cs ih =>
      obtain ⟨h1, h2, h3, h4⟩ := step_fields m c
      obtain ⟨g1, g2, g3, g4⟩ := ih (step m c).1
      rw [exec]
      exact ⟨g1.trans h1, g2.trans h2, g3.trans h3, g4.trans h4⟩

/-! ### The timer stays absent if it is never armed -/

theorem exec_timeout_none (m : Message) (cs : List Call)
    (h : ∀ c ∈ cs, c.isArm = false) (h0 : m.timeout = none) :
    (exec m cs).timeout = none := by
  induction cs generalizing m with
  | nil => simpa [exec]
  | cons c cs ih =>
      have hc : c.isArm = false := h c (by simp)
      have hcs : ∀ x ∈ cs, x.isArm = false := fun x hx => h x (by simp [hx])
      rw [exec]
      cases c with
      | set_timeout c' => simp [Call.isArm] at hc
      | finish =>
          cases hr : m._has_responded with
          | true => simp [step, finish_none m hr]; exact ih _ hcs h0
          | false => simp [step, finish_eq m hr]; exact ih _ hcs (by simp [h0])
      | requeue kwargs =>
          cases hr : m._has_responded with
          | true => simp [step, requeue_none m kwargs hr]; exact ih _ hcs h0
          | false => simp [step, requeue_eq m kwargs hr]; exact ih _ hcs (by simp [h0])
      | touch =>
          cases hr : m._has_responded with
          | true => simp [step, touch_none m hr]; exact ih _ hcs h0
          | false =>
              cases hcn : m.conn <;>
                · simp [step, touch_eq m hr, h0, hcn]
                  exact ih _ hcs h0
      | enable_async => simp [step]; exact ih _ hcs h0
      | fire =>
          simp [step, timeoutRunning_none m h0]
          exact ih _ hcs h0

/-! ### The claims -/

/-- C1: for every Message and every sequence of calls, at most one
`finish()`/`requeue()` call ever succeeds, and once `_has_responded` is
true both disposition calls fail their contract check. -/
theorem at_most_one_disposition (i b : String) (ts a : Int) (cs : List Call)
    (m : Message) (kwargs : Kwargs) (h : m._has_responded = true) :
    succCount (Message.init i b ts a) cs ≤ 1 ∧
    m.finish = none ∧ m.requeue kwargs = none :=
  ⟨succCount_le_one _ cs, finish_none m h, requeue_none m kwargs h⟩

theorem at_most_one_disposition_witness :
    succCount (Message.init "0123456789abcdef" "payload" 1700000000 1)
      [Call.finish, Call.finish, Call.requeue [], Call.touch] ≤ 1 ∧
    respondedEx.finish = none ∧ respondedEx.requeue [] = none :=
  at_most_one_disposition "0123456789abcdef" "payload" 1700000000 1
    [Call.finish, Call.finish, Call.requeue [], Call.touch] respondedEx [] rfl

/-- C2: `finish()` with `responded == false` sets `responded` to true,
stops the timer (so `is_alive` returns false if a timer was armed), and
triggers `FINISH` with the message as context; calling it with
`responded == true` fails the assertion. -/
theorem finish_effects (m : Message) (h : m._has_responded = false) :
    Option.map (fun r => r.1._has_responded) m.finish = some true ∧
    Option.map (fun r => r.1.timeout) m.finish =
      some (m.timeout.map PeriodicCallback.stop) ∧
    Option.map (fun r => r.1.is_alive) m.finish =
      some (m.timeout.map (fun _ => false)) ∧
    Option.map (fun r => r.2) m.finish = some [Message.finishTrigger] ∧
    Message.finish { m with _has_responded := true } = none := by
  rw [finish_eq m h]
  refine ⟨rfl, rfl, ?_, rfl, finish_none _ rfl⟩
  cases ht : m.timeout <;>
    simp [Message.is_alive, ht, PeriodicCallback.stop, PeriodicCallback.is_running]

theorem finish_effects_witness :
    Option.map (fun r => r.1._has_responded) armedEx.finish = some true ∧
    Option.map (fun r => r.1.timeout) armedEx.finish =
      some (armedEx.timeout.map PeriodicCallback.stop) ∧
    Option.map (fun r => r.1.is_alive) armedEx.finish =
      some (armedEx.timeout.map (fun _ => false)) ∧
    Option.map (fun r => r.2) armedEx.finish = some [Message.finishTrigger] ∧
    Message.finish { armedEx with _has_responded := true } = none :=
  finish_effects armedEx rfl

/-- C3: `requeue` with an int `delay`: a positive delay is normalized to a
synthesized `time_ms = delay * 1000` context key; a non-positive delay
(including `-1` and `0`) is passed through unchanged, with no `time_ms`
key synthesized. -/
theorem requeue_delay_normalization (m : Message) (kwargs : Kwargs) (d : Int)
    (h : m._has_responded = false) (hd : getKey kwargs "delay" = some (PyVal.int d)) :
    Option.map (fun r => r.2) (m.requeue kwargs) =
      some [⟨Target.message, EventName.REQUEUE,
        Message.requeueCtx
          (if 0 < d then setKey kwargs "time_ms" (PyVal.int (d * 1000)) else kwargs)⟩] ∧
    getKey (Message.requeueCtx (setKey kwargs "time_ms" (PyVal.int (d * 1000)))) "time_ms" =
      some (CtxVal.val (PyVal.int (d * 1000))) := by
  constructor
  · rw [requeue_eq m kwargs h, normalizeDelay_int kwargs d hd]
    rfl
  · rw [getKey_requeueCtx _ _ (by decide), getKey_setKey_self]
    rfl

theorem requeue_delay_normalization_witness :
    Option.map (fun r => r.2) (msgEx.requeue [("delay", PyVal.int 5)]) =
      some [⟨Target.message, EventName.REQUEUE,
        Message.requeueCtx
          (if 0 < (5 : Int) then
            setKey [("delay", PyVal.int 5)] "time_ms" (PyVal.int (5 * 1000))
          else [("delay", PyVal.int 5)])⟩] ∧
    getKey (Message.requeueCtx
        (setKey [("delay", PyVal.int 5)] "time_ms" (PyVal.int (5 * 1000)))) "time_ms" =
      some (CtxVal.val (PyVal.int (5 * 1000))) :=
  requeue_delay_normalization msgEx [("delay", PyVal.int 5)] 5 rfl rfl

/-- C4, evaluated on the code at a failing input: when the armed timer of
`armedEx` fires, the `MESSAGE_TIMEOUT` trigger is issued on the connection
as the claim says, but its `conn` context value is the message itself
(`self`), which is not the connection object. -/
theorem timeout_context_carries_message :
    (Message.fireTimeout armedEx).2 = [Message.timeoutTrigger] ∧
    Option.map TriggerCall.target (List.head? (Message.fireTimeout armedEx).2) =
      some Target.connection ∧
    getKey Message.timeoutTrigger.ctx "conn" = some (CtxVal.obj Ref.msgSelf) ∧
    CtxVal.obj Ref.msgSelf ≠ CtxVal.obj Ref.connObj :=
  ⟨rfl, rfl, rfl, by decide⟩

/-- C5: after one arm via `_set_timeout`, a sequence of calls containing
no re-arm (`_set_timeout` or `touch`) produces at most one
`MESSAGE_TIMEOUT` notification, and one firing leaves the timer stopped. -/
theorem timeout_single_shot_per_arm (m : Message) (c : Conn) (cs : List Call)
    (h : ∀ x ∈ cs, x.isRearm = false) :
    timeoutCount (events (m._set_timeout c) cs) ≤ 1 ∧
    ((m._set_timeout c).fireTimeout).1.timeoutRunning = false :=
  ⟨timeoutCount_le _ cs h, by
    simp [Message.fireTimeout, timeoutRunning_set, timeoutRunning_clear]⟩

theorem timeout_single_shot_per_arm_witness :
    timeoutCount (events (msgEx._set_timeout connEx)
      [Call.fire, Call.fire, Call.finish, Call.fire]) ≤ 1 ∧
    ((msgEx._set_timeout connEx).fireTimeout).1.timeoutRunning = false :=
  timeout_single_shot_per_arm msgEx connEx
    [Call.fire, Call.fire, Call.finish, Call.fire] (by decide)

/-- C6: `is_alive()` on a message whose timer was never armed fails its
assertion (returns no value) rather than a default, and on a message whose
timer was armed it reports whether the timer is running. -/
theorem is_alive_contract (i b : String) (ts a : Int) (cs : List Call)
    (m : Message) (t : PeriodicCallback)
    (h : ∀ c ∈ cs, c.isArm = false) (ht : m.timeout = some t) :
    (exec (Message.init i b ts a) cs).is_alive = none ∧
    m.is_alive = some t.is_running :=
  ⟨by simp [Message.is_alive, exec_timeout_none (Message.init i b ts a) cs h rfl],
   by simp [Message.is_alive, ht]⟩

theorem is_alive_contract_witness :
    (exec (Message.init "0123456789abcdef" "payload" 1700000000 1)
      [Call.finish, Call.touch, Call.enable_async, Call.fire]).is_alive = none ∧
    armedEx.is_alive = some (PeriodicCallback.is_running ⟨60000, true⟩) :=
  is_alive_contract "0123456789abcdef" "payload" 1700000000 1
    [Call.finish, Call.touch, Call.enable_async, Call.fire]
    armedEx ⟨60000, true⟩ (by decide) rfl

/-- C7: `touch()` requires `responded == false` and is not terminal: it
re-arms the timer with the stored connection when one was armed, triggers
`TOUCH` with the message as context, leaves `responded` false so a
subsequent `finish()` succeeds; `finish()` followed by `touch()` fails the
contract check. -/
theorem touch_contract (m : Message) (c : Conn) (t : PeriodicCallback)
    (h : m._has_responded = false) (ht : m.timeout = some t) (hc : m.conn = some c) :
    m.touch = some (m._set_timeout c, [Message.touchTrigger]) ∧
    (m._set_timeout c)._has_responded = false ∧
    (m._set_timeout c).timeoutRunning = true ∧
    Option.map (fun r => r.2) (m._set_timeout c).finish = some [Message.finishTrigger] ∧
    Option.map (fun r => r.1.touch) m.finish = some none := by
  have hset : (m._set_timeout c)._has_responded = false := by
    rw [_set_timeout_eq]; exact h
  refine ⟨touch_eq_armed m c t h ht hc, hset, timeoutRunning_set m c, ?_, ?_⟩
  · rw [finish_eq _ hset]; rfl
  · rw [finish_eq m h]; rfl

theorem touch_contract_witness :
    armedEx.touch = some (armedEx._set_timeout connEx, [Message.touchTrigger]) ∧
    (armedEx._set_timeout connEx)._has_responded = false ∧
    (armedEx._set_timeout connEx).timeoutRunning = true ∧
    Option.map (fun r => r.2) (armedEx._set_timeout connEx).finish =
      some [Message.finishTrigger] ∧
    Option.map (fun r => r.1.touch) armedEx.finish = some none :=
  touch_contract armedEx connEx ⟨60000, true⟩ rfl rfl rfl

/-- C8: `id`, `body`, `timestamp` and `attempts` are stored verbatim at
construction and unchanged by every sequence of operations (finish,
requeue, touch, enable_async, _set_timeout, timer firings). -/
theorem fields_immutable (i b : String) (ts a : Int) (cs : List Call) :
    (Message.init i b ts a).id = i ∧ (Message.init i b ts a).body = b ∧
    (Message.init i b ts a).timestamp = ts ∧ (Message.init i b ts a).attempts = a ∧
    (exec (Message.init i b ts a) cs).id = i ∧
    (exec (Message.init i b ts a) cs).body = b ∧
    (exec (Message.init i b ts a) cs).timestamp = ts ∧
    (exec (Message.init i b ts a) cs).attempts = a := by
  obtain ⟨h1, h2, h3, h4⟩ := exec_fields (Message.init i b ts a) cs
  exact ⟨rfl, rfl, rfl, rfl, h1, h2, h3, h4⟩

/-- C9: `requeue` with a positive int `delay` emits a `REQUEUE` context
that still carries the original `delay` key unchanged alongside the
synthesized `time_ms` key. -/
theorem requeue_preserves_delay_key (m : Message) (kwargs : Kwargs) (d : Int)
    (h : m._has_responded = false) (hd : getKey kwargs "delay" = some (PyVal.int d))
    (hpos : 0 < d) :
    Option.map (fun r => r.2) (m.requeue kwargs) =
      some [⟨Target.message, EventName.REQUEUE,
        Message.requeueCtx (setKey kwargs "time_ms" (PyVal.int (d * 1000)))⟩] ∧
    getKey (Message.requeueCtx (setKey kwargs "time_ms" (PyVal.int (d * 1000)))) "delay" =
      some (CtxVal.val (PyVal.int d)) ∧
    getKey (Message.requeueCtx (setKey kwargs "time_ms" (PyVal.int (d * 1000)))) "time_ms" =
      some (CtxVal.val (PyVal.int (d * 1000))) := by
  refine ⟨?_, ?_, ?_⟩
  · rw [requeue_eq m kwargs h, normalizeDelay_int kwargs d hd, if_pos hpos]
    rfl
  · rw [getKey_requeueCtx _ _ (by decide),
      getKey_setKey_ne _ _ _ _ (by decide), hd]
    rfl
  · rw [getKey_requeueCtx _ _ (by decide), getKey_setKey_self]
    rfl

theorem requeue_preserves_delay_key_witness :
    Option.map (fun r => r.2) (msgEx.requeue [("backoff", PyVal.bool false), ("delay", PyVal.int 7)]) =
      some [⟨Target.message, EventName.REQUEUE,
        Message.requeueCtx (setKey [("backoff", PyVal.bool false), ("delay", PyVal.int 7)]
          "time_ms" (PyVal.int (7 * 1000)))⟩] ∧
    getKey (Message.requeueCtx (setKey [("backoff", PyVal.bool false), ("delay", PyVal.int 7)]
        "time_ms" (PyVal.int (7 * 1000)))) "delay" =
      some (CtxVal.val (PyVal.int 7)) ∧
    getKey (Message.requeueCtx (setKey [("backoff", PyVal.bool false), ("delay", PyVal.int 7)]
        "time_ms" (PyVal.int (7 * 1000)))) "time_ms" =
      some (CtxVal.val (PyVal.int (7 * 1000))) :=
  requeue_preserves_delay_key msgEx [("backoff", PyVal.bool false), ("delay", PyVal.int 7)]
    7 rfl rfl (by decide)

/-- C10: calling `finish()` or `requeue()` on an already-responded message
fails the assertion before any observable effect: the state is unchanged
and no notification is triggered. -/
theorem disposition_failure_atomic (m : Message) (kwargs : Kwargs)
    (h : m._has_responded = true) :
    m.finish = none ∧ m.requeue kwargs = none ∧
    step m Call.finish = (m, [], false) ∧
    step m (Call.requeue kwargs) = (m, [], false) := by
  refine ⟨finish_none m h, requeue_none m kwargs h, ?_, ?_⟩
  · simp [step, finish_none m h]
  · simp [step, requeue_none m kwargs h]

theorem disposition_failure_atomic_witness :
    respondedEx.finish = none ∧ respondedEx.requeue [("delay", PyVal.int 3)] = none ∧
    step respondedEx Call.finish = (respondedEx, [], false) ∧
    step respondedEx (Call.requeue [("delay", PyVal.int 3)]) = (respondedEx, [], false) :=
  disposition_failure_atomic respondedEx [("delay", PyVal.int 3)] rfl

end Nsq
